import Mathlib

/-!
Shallow embedding of the ANTEX (ANTenna EXchange) parser from package `antex`
(`ReadAntexData`, `ScanHeader`, `scanOneAntenna`, `parseOneFreq`, `parseOneAzi`,
`parseDate`), together with theorems settling the specification claims.

Modelling conventions:
* A physical line is a `List Char` (Go strings are byte strings; ANTEX is ASCII).
* The line source (`mscanner.Scanner`) is modelled as an explicit `List Line`
  threaded through every function; `s.Scan()` / `s.Text()` become list
  destructuring.
* Go `float64` values are modelled as exact decimals: every float the parser
  reads comes from a decimal literal, represented as `GoFloat` (an integer
  mantissa and a power-of-ten scale, value `m / 10^s`).  Arithmetic on these
  representations is exact rational arithmetic and `int(x)` conversion is
  truncation toward zero (`Int.tdiv`), as in Go; the binary64 rounding of
  decimals without an exact binary64 representation is NOT modelled, so
  properties that hinge on the numeric value of a rounded result are outside
  this embedding (structural properties — which lines are consumed, which
  error path is taken, how many rows are read against the count the code
  itself computed — do not depend on that rounding).
* A Go runtime panic (out-of-range string index/slice, `make` with negative
  length) is modelled as the `none` value of an `Option`-typed result; ordinary
  Go `error` values are modelled by the inductive `PErr` (the message strings
  and line numbers carried by `fmt.Errorf` are elided, the constructor
  identifies the error site).
-/

namespace Antex

/-- A physical input line. -/
abbrev Line := List Char

/-- Characters accepted by Go `unicode.IsSpace` that can occur in a text line. -/
def isSpaceChar (c : Char) : Bool :=
  c = ' ' || c = '\t' || c = '\n' || c = '\r'

/-- Go `strings.HasPrefix(s, pat)`. -/
def startsWith (s pat : Line) : Bool := pat.isPrefixOf s

/-- Go `strings.HasSuffix(s, pat)`. -/
def endsWith (s pat : Line) : Bool := pat.isSuffixOf s

/-- Go `strings.TrimRight(s, " ")`: drop trailing blanks. -/
def trimRight (s : Line) : Line := (s.reverse.dropWhile (· = ' ')).reverse

/-- Go `strings.TrimSpace`: drop leading and trailing whitespace. -/
def trimSpace (s : Line) : Line :=
  ((s.dropWhile isSpaceChar).reverse.dropWhile isSpaceChar).reverse

/-- Helper for `fields`: accumulates the current word (reversed). -/
def fieldsAux : Line → Line → List Line
  | [], cur => if cur.isEmpty then [] else [cur.reverse]
  | c :: rest, cur =>
      if isSpaceChar c then
        if cur.isEmpty then fieldsAux rest [] else cur.reverse :: fieldsAux rest []
      else fieldsAux rest (c :: cur)

/-- Go `strings.Fields`: split around runs of whitespace. -/
def fields (s : Line) : List Line := fieldsAux s []

/-- Go string slicing `s[i:]`: panics (`none`) when `i > len(s)`. -/
def goDropFrom (s : Line) (i : Nat) : Option Line :=
  if i ≤ s.length then some (s.drop i) else none

/-- Go string slicing `s[i:j]` (with `i ≤ j`): panics (`none`) when out of range. -/
def goSlice (s : Line) (i j : Nat) : Option Line :=
  if i ≤ j ∧ j ≤ s.length then some ((s.take j).drop i) else none

/-- Go string indexing `s[i]`: panics (`none`) when `i ≥ len(s)`. -/
def goGet (s : Line) (i : Nat) : Option Char := s.get? i

/-- Decimal digit test. -/
def isDigitChar (c : Char) : Bool := '0' ≤ c ∧ c ≤ '9'

/-- Numeric value of a digit string. -/
def digitsVal (s : Line) : Nat := s.foldl (fun acc c => 10 * acc + (c.toNat - 48)) 0

/--
Exact-decimal model of a Go `float64` produced by `strconv.ParseFloat` on a
decimal literal: the value is `m / 10^s`.  The representation is kept
unnormalized; all arithmetic performed on it by the parser is exact.  The
rounding that binary64 applies to decimals it cannot represent exactly is not
modelled (see the file header).
-/
structure GoFloat where
  m : ℤ
  s : ℕ
deriving DecidableEq, Repr

/-- The zero value of a Go `float64` variable. -/
def GoFloat.zero : GoFloat := ⟨0, 0⟩

/-- Go `f == 0` comparison for a decimal value. -/
def GoFloat.isZero (d : GoFloat) : Bool := d.m = 0

/-- Exact value of the represented float, as a rational. -/
def GoFloat.toRat (d : GoFloat) : ℚ := (d.m : ℚ) / (10 : ℚ) ^ d.s

/-- Difference `a - b` of two represented floats, computed exactly (the
float64 subtraction's rounding step is not modelled). -/
def GoFloat.sub (a b : GoFloat) : GoFloat :=
  ⟨a.m * (10 : ℤ) ^ b.s - b.m * (10 : ℤ) ^ a.s, a.s + b.s⟩

/--
Go `int(a / b)` for two represented floats: the exact quotient truncated
toward zero (Go integer conversion truncates toward zero).  The float64
division's rounding step is not modelled, so this agrees with Go exactly at
binary64-representable operands and quotients.  Meaningful only when `b` is
nonzero; the parser guards the one division whose divisor can be zero (see
`parseOneFreq`).
-/
def GoFloat.truncDiv (a b : GoFloat) : ℤ :=
  Int.tdiv (a.m * (10 : ℤ) ^ b.s) (b.m * (10 : ℤ) ^ a.s)

/--
Model of Go `strconv.ParseFloat` (standard library) restricted to the plain
decimal forms that occur in ANTEX data: optional sign, digits, optional
fractional part, at least one digit overall.  Exponent, hexadecimal and
infinity forms accepted by the full library function are not modelled (the
parser under verification only meets plain decimals), and the parsed value is
kept as the exact decimal rather than rounded to binary64 (see the file
header).  Returns `none` on a malformed number (the Go function returns an
error and the value 0).
-/
def parseFloat (s : Line) : Option GoFloat :=
  let core : Line → Option (ℕ × ℕ) := fun t =>
    let ip := t.takeWhile isDigitChar
    let rest := t.dropWhile isDigitChar
    match rest with
    | [] => if ip.isEmpty then none else some (digitsVal ip, 0)
    | '.' :: r =>
        let fp := r.takeWhile isDigitChar
        let rest' := r.dropWhile isDigitChar
        if rest'.isEmpty ∧ ¬(ip.isEmpty ∧ fp.isEmpty) then
          some (digitsVal (ip ++ fp), fp.length)
        else none
    | _ => none
  match s with
  | '+' :: t => (core t).map (fun p => ⟨(p.1 : ℤ), p.2⟩)
  | '-' :: t => (core t).map (fun p => ⟨-(p.1 : ℤ), p.2⟩)
  | t => (core t).map (fun p => ⟨(p.1 : ℤ), p.2⟩)

/--
Model of Go `strconv.Atoi` (standard library): optional sign followed by a
nonempty run of digits.  Overflow is not modelled (ANTEX fields are small).
Returns `none` on a malformed number (the Go function returns an error and 0).
-/
def parseInt (s : Line) : Option ℤ :=
  match s with
  | '+' :: t => if ¬t.isEmpty ∧ t.all isDigitChar then some (digitsVal t : ℤ) else none
  | '-' :: t => if ¬t.isEmpty ∧ t.all isDigitChar then some (-(digitsVal t : ℤ)) else none
  | t => if ¬t.isEmpty ∧ t.all isDigitChar then some (digitsVal t : ℤ) else none

/-- A calendar timestamp, the model of Go `time.Time` as far as the parser
uses it (six numeric components; the fractional second is kept exact). -/
structure GoTime where
  year : ℕ
  month : ℕ
  day : ℕ
  hour : ℕ
  minute : ℕ
  sec : GoFloat
deriving DecidableEq, Repr

/-- The zero value of a Go `time.Time` variable: 0001-01-01 00:00:00 UTC. -/
def GoTime.zero : GoTime := ⟨1, 1, 1, 0, 0, GoFloat.zero⟩

/-- Helper for `spaceFields`: accumulates the current word (reversed). -/
def spaceFieldsAux : Line → Line → List Line
  | [], cur => if cur.isEmpty then [] else [cur.reverse]
  | c :: rest, cur =>
      if c = ' ' then
        if cur.isEmpty then spaceFieldsAux rest []
        else cur.reverse :: spaceFieldsAux rest []
      else spaceFieldsAux rest (c :: cur)

/-- Split around runs of plain blanks only.  Go `time.Parse` matches the
layout's space runs with `cutspace`, which consumes only `' '` — a tab
between date fields is a mismatch, unlike `strings.Fields`. -/
def spaceFields (s : Line) : List Line := spaceFieldsAux s []

/--
The seconds position of the date layout, as `time.Parse` reads it: `getnum`
takes one or two digits (a third digit is left over and fails the layout's
trailing spaces), then an optional fractional part introduced by a period or
a comma (`commaOrPeriod` in the library) followed by at least one digit.
Returns the integer second count together with the exact combined value.
-/
def parseSecondsVal (s : Line) : Option (ℕ × GoFloat) :=
  let ip := s.takeWhile isDigitChar
  let rest := s.dropWhile isDigitChar
  if ip.isEmpty ∨ 2 < ip.length then none
  else
    match rest with
    | [] => some (digitsVal ip, ⟨(digitsVal ip : ℤ), 0⟩)
    | c :: r =>
        if (c = '.' ∨ c = ',') ∧ ¬r.isEmpty ∧ r.all isDigitChar then
          some (digitsVal ip, ⟨(digitsVal (ip ++ r) : ℤ), r.length⟩)
        else none

/-- Go `isLeap`. -/
def isLeapYear (y : ℕ) : Bool := y % 4 = 0 ∧ (y % 100 ≠ 0 ∨ y % 400 = 0)

/-- Go `daysIn`: the number of days of a month in a given year. -/
def daysIn (mo y : ℕ) : ℕ :=
  if mo = 2 then (if isLeapYear y then 29 else 28)
  else if mo = 4 ∨ mo = 6 ∨ mo = 9 ∨ mo = 11 then 30
  else 31

/--
Model of `parseDate` (source file, `parseDate`), which calls Go `time.Parse`
(standard library) with the fixed layout
`"2006     1     2    15     4    5        "` on the whitespace-trimmed field.
`time.Parse` with this layout accepts exactly six numeric fields separated by
runs of plain blanks — a four-digit year, one-or-two-digit month, day, hour
and minute, and seconds with an optional period- or comma-introduced
fractional part — subject to the library's range checks: month 1–12, day
within the month's length for that year, hour below 24, minute and second
below 60.  Anything else is an error (`none`).  The fractional second is
kept exact (the library truncates it to nanoseconds).
-/
def parseDate (s : Line) : Option GoTime :=
  match spaceFields (trimSpace s) with
  | [y, mo, d, h, mi, sec] =>
      if y.length = 4 ∧ y.all isDigitChar ∧
         (mo.length = 1 ∨ mo.length = 2) ∧ mo.all isDigitChar ∧
         (d.length = 1 ∨ d.length = 2) ∧ d.all isDigitChar ∧
         (h.length = 1 ∨ h.length = 2) ∧ h.all isDigitChar ∧
         (mi.length = 1 ∨ mi.length = 2) ∧ mi.all isDigitChar then
        match parseSecondsVal sec with
        | none => none
        | some (si, sv) =>
            if 1 ≤ digitsVal mo ∧ digitsVal mo ≤ 12 ∧
               1 ≤ digitsVal d ∧ digitsVal d ≤ daysIn (digitsVal mo) (digitsVal y) ∧
               digitsVal h ≤ 23 ∧ digitsVal mi ≤ 59 ∧ si ≤ 59 then
              some ⟨digitsVal y, digitsVal mo, digitsVal d,
                    digitsVal h, digitsVal mi, sv⟩
            else none
      else none
  | _ => none

/-- North/east/up phase-center offset (`pco` in the source). -/
structure Pco where
  N : GoFloat
  E : GoFloat
  U : GoFloat
deriving DecidableEq, Repr

/-- One frequency's phase-center data (`pcv` in the source). -/
structure Pcv where
  Sys : Char := Char.ofNat 0
  Freq : ℤ := 0
  Zen1 : GoFloat := GoFloat.zero
  Zen2 : GoFloat := GoFloat.zero
  Dzen : GoFloat := GoFloat.zero
  Dazi : GoFloat := GoFloat.zero
  Nazi : ℤ := 0
  Nzen : ℤ := 0
  PCO : Pco := ⟨GoFloat.zero, GoFloat.zero, GoFloat.zero⟩
  Vnonaz : List GoFloat := []
  Vaz : List (List GoFloat) := []
  Azs : List GoFloat := []
deriving DecidableEq, Repr

/-- One antenna record (`antenna` in the source; the Go field `Type` is
rendered `Typ` because `Type` is reserved in Lean). -/
structure Antenna where
  Typ : Line := []
  S1 : Line := []
  S2 : Line := []
  S3 : Line := []
  PCV : List Pcv := []
  isSatelliteAntenna : Bool := false
  ValidFrom : GoTime := GoTime.zero
  ValidUntil : GoTime := GoTime.zero
  SinexCode : Line := []
deriving DecidableEq, Repr

/-- The zero-initialized antenna built at the top of `scanOneAntenna`. -/
def antennaZero : Antenna := {}

/-- Source method `antenna.IsSatAnt`. -/
def Antenna.IsSatAnt (a : Antenna) : Bool := a.isSatelliteAntenna

/--
Go `error` values produced by the parser.  Each constructor stands for one
`fmt.Errorf` site (the message text and line number are elided):
* `badFloat` / `badAtoi` / `badDate` — `strconv.ParseFloat` / `strconv.Atoi` /
  `time.Parse` failures;
* `noPhase` — `parseOneAzi`: "no phase variation found";
* `noaziNotFound` — `parseOneFreq`: "NOAZI not found";
* `invalidValues` — `parseOneFreq`: "invalid values" (row length ≠ nzen);
* `noaziAtAzimuth` — `parseOneFreq`: "NOAZI found at azimuth dependent values";
* `invalidAz` — `parseOneFreq`: "invalid az found";
* `invalidEndPos` — `parseOneFreq`: "invalid 'END OF FREQUENCY' position";
* `endFreqNotFound` — `parseOneFreq`: "'END OF FREQUENCY' not found";
* `endAntNotFound` — `scanOneAntenna`: "End of freq label not found";
* `divByZero` — the embedding's guard for the division `(zen2-zen1)/dzen`
  performed by `parseOneFreq` with `dzen = 0` (Go computes an infinity and an
  implementation-defined `int` conversion there; the embedding makes that
  branch an explicit error);
* `pcvWrap e` — `scanOneAntenna`: "error in pcv data for ...", wrapping the
  `parseOneFreq` error `e`.
-/
inductive PErr where
  | badFloat
  | badAtoi
  | badDate
  | noPhase
  | noaziNotFound
  | invalidValues
  | noaziAtAzimuth
  | invalidAz
  | invalidEndPos
  | endFreqNotFound
  | endAntNotFound
  | divByZero
  | pcvWrap (e : PErr)
deriving DecidableEq, Repr

/-- Label string of a `COMMENT` line. -/
def commentLabel : Line := "COMMENT".toList

/-- Label string of a `TYPE / SERIAL NO` line. -/
def typeSerialLabel : Line := "TYPE / SERIAL NO".toList

/-- Label string of a `METH / BY / # / DATE` line. -/
def methLabel : Line := "METH / BY / # / DATE".toList

/-- Label string of a `DAZI` line. -/
def daziLabel : Line := "DAZI".toList

/-- Label string of a `ZEN1 / ZEN2 / DZEN` line. -/
def zenLabel : Line := "ZEN1 / ZEN2 / DZEN".toList

/-- Label string of a `# OF FREQUENCIES` line. -/
def numFreqLabel : Line := "# OF FREQUENCIES".toList

/-- Label string of a `VALID FROM` line. -/
def validFromLabel : Line := "VALID FROM".toList

/-- Label string of a `VALID UNTIL` line. -/
def validUntilLabel : Line := "VALID UNTIL".toList

/-- Label string of a `SINEX CODE` line. -/
def sinexLabel : Line := "SINEX CODE".toList

/-- Label string of a `START OF FREQUENCY` line. -/
def startFreqLabel : Line := "START OF FREQUENCY".toList

/-- Label string of an `END OF FREQUENCY` line. -/
def endFreqLabel : Line := "END OF FREQUENCY".toList

/-- Label string of a `START OF ANTENNA` line. -/
def startAntLabel : Line := "START OF ANTENNA".toList

/-- Label string of an `END OF ANTENNA` line. -/
def endAntLabel : Line := "END OF ANTENNA".toList

/-- Label string of a `NORTH / EAST / UP` line. -/
def neuLabel : Line := "NORTH / EAST / UP".toList

/-- The `NOAZI` sentinel key of the non-azimuth PCV row. -/
def noaziToken : Line := "NOAZI".toList

/-- Label string of the `ANTEX VERSION / SYST` header line. -/
def antexVerLabel : Line := "ANTEX VERSION / SYST".toList

/-- Label string of the `PCV TYPE / REFANT` header line. -/
def pcvTypeLabel : Line := "PCV TYPE / REFANT".toList

/-- Label string of the `END OF HEADER` line. -/
def endHeaderLabel : Line := "END OF HEADER".toList

/--
Source function `parseOneAzi`: split the row on whitespace; the first token is
the key (still a string), the remaining tokens must all parse as floats.
-/
def parseOneAzi (s : Line) : Except PErr (Line × List GoFloat) :=
  match fields s with
  | [] => .error .noPhase
  | az :: vs =>
      match vs.mapM parseFloat with
      | none => .error .badFloat
      | some v => .ok (az, v)

/--
The `nextLine` closure defined inside `parseOneFreq`.  Note the source tests
`strings.HasSuffix(strings.TrimRight(buf, " "), "COMMENT")` on the enclosing
function's `buf` variable (the previously consumed line), not on the line just
scanned: when the previous line does not end in `COMMENT` the next line is
returned immediately (even if it is itself a comment), and when the previous
line does end in `COMMENT` the loop never returns and drains the whole input,
producing the empty string.
-/
def freqNextLine (prevBuf : Line) (lines : List Line) : Line × List Line :=
  match lines with
  | [] => ([], [])
  | l :: rest =>
      if endsWith (trimRight prevBuf) commentLabel then ([], [])
      else (l, rest)

/-- The azimuth count `nazi` computed by `parseOneFreq`:
`0` when `dazi == 0`, else `int(360./dazi) + 1`. -/
def naziOf (dazi : GoFloat) : ℤ :=
  if dazi.isZero then 0 else GoFloat.truncDiv ⟨360, 0⟩ dazi + 1

/-- The zenith count `nzen` computed by `parseOneFreq`:
`int((zen2-zen1)/dzen) + 1` (the caller guards `dzen ≠ 0`). -/
def nzenOf (zen1 zen2 dzen : GoFloat) : ℤ :=
  GoFloat.truncDiv (zen2.sub zen1) dzen + 1

/-- Outcome of the `NORTH / EAST / UP` section of `parseOneFreq`. -/
inductive PcoOut where
  | early (p : Pcv) (rest : List Line)
  | err (p : Pcv) (e : PErr) (rest : List Line)
  | cont (p : Pcv) (buf : Line) (rest : List Line)
deriving DecidableEq, Repr

/--
The inner scan loop of `parseOneFreq` entered when the `NORTH / EAST / UP`
line has fewer than three fields: advance until a line whose column-60 suffix
starts with `END OF FREQUENCY`.  `some (some rest)` — label found, the
enclosing function returns there; `some none` — input exhausted, control falls
through to the field indexing below the loop, which indexes `sep[1]`/`sep[2]`
out of range (a Go panic, `none` at the caller); `none` — a line shorter than
60 characters made `buf[60:]` panic inside the loop.
-/
def pcoAdvance : List Line → Option (Option (List Line))
  | [] => some none
  | l :: rest =>
      match goDropFrom l 60 with
      | none => none
      | some lab => if startsWith lab endFreqLabel then some (some rest) else pcoAdvance rest

/--
The `NORTH / EAST / UP` section of `parseOneFreq` (source lines after the
first `nextLine` call): if the line carries the `NORTH / EAST / UP` label,
split its data columns; with fewer than three fields the source scans ahead to
`END OF FREQUENCY` and — through a bare `return` with a nil `err` — returns
the partial record as a success; with three fields it parses them as floats
into the PCO, any failure being an error return.  A line without the label
leaves the PCO absent and control continues with that same line as `buf`.
-/
def pcoSection (p : Pcv) (buf1 : Line) (lines1 : List Line) : Option PcoOut :=
  match goDropFrom buf1 60 with
  | none => none
  | some lab =>
      if startsWith lab neuLabel then
        let sep := fields (buf1.take 60)
        if sep.length < 3 then
          match pcoAdvance lines1 with
          | none => none
          | some none => none
          | some (some rest) => some (.early p rest)
        else
          match parseFloat (sep.getD 0 []), parseFloat (sep.getD 1 []),
                parseFloat (sep.getD 2 []) with
          | some n, some e, some u =>
              some (.cont { p with PCO := ⟨n, e, u⟩ } buf1 lines1)
          | _, _, _ => some (.err p .badFloat lines1)
      else some (.cont p buf1 lines1)

/--
The azimuth-row loop of `parseOneFreq` (`for i := 0; i < nazi; i++`): each
iteration reads a line with `nextLine`, parses it with `parseOneAzi`, rejects
the `NOAZI` sentinel and a wrong value count, and parses the key as the
azimuth.  Returns the collected rows and azimuths, the last consumed line and
the remaining input, or the first error with the input position at which it
occurred.
-/
def readAziRows : Nat → ℤ → Line → List Line →
    Except (PErr × List Line) (List (List GoFloat) × List GoFloat × Line × List Line)
  | 0, _, prevBuf, lines => .ok ([], [], prevBuf, lines)
  | n + 1, nzen, prevBuf, lines =>
      let bl := freqNextLine prevBuf lines
      match parseOneAzi bl.1 with
      | .error e => .error (e, bl.2)
      | .ok (az, vals) =>
          if az = noaziToken then .error (.noaziAtAzimuth, bl.2)
          else if (vals.length : ℤ) ≠ nzen then .error (.invalidValues, bl.2)
          else
            match parseFloat az with
            | none => .error (.invalidAz, bl.2)
            | some azv =>
                match readAziRows n nzen bl.1 bl.2 with
                | .error er => .error er
                | .ok (rows, azs, b, r) => .ok (vals :: rows, azv :: azs, b, r)

/--
The trailing resynchronization loop of `parseOneFreq`, entered when the line
after the last row is not `END OF FREQUENCY`: scan forward; the condition
`len(buf) > 60 || strings.HasPrefix(buf[60:], "END OF FREQUENCY")`
short-circuits, so any line longer than 60 characters triggers the
"invalid position" error return (`some (true, rest)`), a 60-character line is
skipped, a shorter line panics on `buf[60:]` (`none`), and exhaustion yields
the "not found" error (`some (false, [])`).
-/
def endResync : List Line → Option (Bool × List Line)
  | [] => some (false, [])
  | l :: rest =>
      if 60 < l.length then some (true, rest)
      else if l.length < 60 then none
      else endResync rest

/--
Source function `parseOneFreq`: parse one frequency block.  `buf0` is the
`START OF FREQUENCY` line itself (Go argument `buf`), `lines` the remaining
input; `dazi`, `zen1`, `zen2`, `dzen` are the grid parameters captured by the
enclosing `scanOneAntenna`.  Result: `none` for a Go panic, otherwise the
`pcv` record, the Go `err` result, and the remaining input.
-/
def parseOneFreq (lines : List Line) (buf0 : Line) (dazi zen1 zen2 dzen : GoFloat) :
    Option (Pcv × Option PErr × List Line) :=
  match goGet buf0 3, goSlice buf0 4 6 with
  | some sys, some fstr =>
      let p0 : Pcv := { Sys := sys }
      match parseInt fstr with
      | none => some (p0, some .badAtoi, lines)
      | some fr =>
          let p1 : Pcv := { p0 with Freq := fr }
          let bl1 := freqNextLine buf0 lines
          match pcoSection p1 bl1.1 bl1.2 with
          | none => none
          | some (.early p rest) => some (p, none, rest)
          | some (.err p e rest) => some (p, some e, rest)
          | some (.cont p2 buf2 lines2) =>
              let nazi := naziOf dazi
              if dzen.isZero then some (p2, some .divByZero, lines2)
              else
                let nzen := nzenOf zen1 zen2 dzen
                let p3 : Pcv := { p2 with Nzen := nzen, Nazi := nazi }
                if nazi < 0 then none
                else
                  let bl3 := freqNextLine buf2 lines2
                  match parseOneAzi bl3.1 with
                  | .error e => some (p3, some e, bl3.2)
                  | .ok (az, vals) =>
                      if az ≠ noaziToken then some (p3, some .noaziNotFound, bl3.2)
                      else if (vals.length : ℤ) ≠ nzen then
                        some (p3, some .invalidValues, bl3.2)
                      else
                        let p4 : Pcv := { p3 with Vnonaz := vals }
                        match readAziRows nazi.toNat nzen bl3.1 bl3.2 with
                        | .error er => some (p4, some er.1, er.2)
                        | .ok (rows, azs, buf4, lines4) =>
                            let p5 : Pcv := { p4 with Vaz := rows, Azs := azs }
                            let bl5 := freqNextLine buf4 lines4
                            if 61 ≤ bl5.1.length ∧
                               startsWith (bl5.1.drop 60) endFreqLabel = true then
                              some (p5, none, bl5.2)
                            else
                              match endResync bl5.2 with
                              | none => none
                              | some (true, rest) => some (p5, some .invalidEndPos, rest)
                              | some (false, rest) => some (p5, some .endFreqNotFound, rest)
  | _, _ => none

/-- The local state of `scanOneAntenna`: the antenna being built plus the
antenna-scoped variables `nf`, `dazi`, `zen1`, `zen2`, `dzen`. -/
structure AntScan where
  ant : Antenna := {}
  nf : ℤ := 0
  dazi : GoFloat := GoFloat.zero
  zen1 : GoFloat := GoFloat.zero
  zen2 : GoFloat := GoFloat.zero
  dzen : GoFloat := GoFloat.zero
deriving DecidableEq, Repr

/-- The state `scanOneAntenna` starts from (`ant = antenna{}` with an empty
`PCV` slice, all scoped variables zero-valued). -/
def antScanInit : AntScan := {}

/-- Result of dispatching one labeled line inside `scanOneAntenna`'s loop:
continue with an updated state, stop successfully (`END OF ANTENNA`), fail
with an error (taking the resynchronization path; the state still receives
the zero value Go assigns along with a parse error), or enter the frequency
sub-parser (`START OF FREQUENCY`, handled by the loop itself because it
consumes further lines). -/
inductive StepRes where
  | next (st : AntScan)
  | stop
  | fail (st : AntScan) (e : PErr)
  | freq
deriving DecidableEq, Repr

/--
The label dispatch (`switch label`) of `scanOneAntenna` for one line `l` of
length at least 61.  Mirrors the source case by case; note that a
`ZEN1 / ZEN2 / DZEN` line with fewer than three fields only breaks out of the
switch (the loop continues with the state unchanged), and that on a parse
failure Go has already stored the failed conversion's zero value before the
loop breaks.
-/
def antennaStep (st : AntScan) (l : Line) : StepRes :=
  let lab := trimRight (l.drop 60)
  if lab = commentLabel then .next st
  else if lab = typeSerialLabel then
    .next { st with ant := { st.ant with
      Typ := trimSpace (l.take 20)
      S1 := trimSpace ((l.drop 20).take 20)
      S2 := trimSpace ((l.drop 40).take 10)
      S3 := trimSpace ((l.drop 50).take 10) } }
  else if lab = methLabel then .next st
  else if lab = daziLabel then
    match parseFloat (trimSpace (l.take 60)) with
    | some q => .next { st with dazi := q }
    | none => .fail { st with dazi := GoFloat.zero } .badFloat
  else if lab = zenLabel then
    match fields (l.take 60) with
    | s1 :: s2 :: s3 :: _ =>
        let st' := { st with
          zen1 := (parseFloat s1).getD GoFloat.zero
          zen2 := (parseFloat s2).getD GoFloat.zero
          dzen := (parseFloat s3).getD GoFloat.zero }
        if (parseFloat s1).isSome ∧ (parseFloat s2).isSome ∧ (parseFloat s3).isSome then
          .next st'
        else .fail st' .badFloat
    | _ => .next st
  else if lab = numFreqLabel then
    match parseInt (trimSpace (l.take 60)) with
    | some n => .next { st with nf := n }
    | none => .fail { st with nf := 0 } .badAtoi
  else if lab = validFromLabel then
    match parseDate (l.take 60) with
    | some t => .next { st with ant := { st.ant with ValidFrom := t } }
    | none => .fail { st with ant := { st.ant with ValidFrom := GoTime.zero } } .badDate
  else if lab = validUntilLabel then
    match parseDate (l.take 60) with
    | some t => .next { st with ant := { st.ant with ValidUntil := t } }
    | none => .fail { st with ant := { st.ant with ValidUntil := GoTime.zero } } .badDate
  else if lab = sinexLabel then
    .next { st with ant := { st.ant with SinexCode := trimSpace (l.take 60) } }
  else if lab = startFreqLabel then .freq
  else if lab = endAntLabel then .stop
  else .next st

/--
The error-recovery scan at the bottom of `scanOneAntenna`: advance past lines
until one of length over 60 whose column-60 suffix starts with
`END OF ANTENNA` (consumed), or to the end of input.
-/
def resyncAntenna : List Line → List Line
  | [] => []
  | l :: rest =>
      if 60 < l.length ∧ startsWith (l.drop 60) endAntLabel = true then rest
      else resyncAntenna rest

/-- Appending a successfully parsed frequency grid to the antenna, with the
grid parameters stamped in (`p.Dazi = dazi` etc.) as the source does after
`parseOneFreq` returns. -/
def addPcv (st : AntScan) (p : Pcv) : AntScan :=
  { st with ant := { st.ant with PCV := st.ant.PCV ++
      [{ p with Dazi := st.dazi, Zen1 := st.zen1, Zen2 := st.zen2, Dzen := st.dzen }] } }

/--
The scan loop of `scanOneAntenna`, with explicit fuel (the loop consumes at
least one line per iteration, so any fuel exceeding the input length is
sufficient; exhausted fuel is reported as `none`, an outcome sufficient fuel
never produces).  A line shorter than 61 characters is logged and breaks the
loop with a nil `e`, so the function returns the "End of freq label not
found" error; the same error is returned when input runs out.  On a field or
frequency-block error the loop breaks, resynchronizes to `END OF ANTENNA` and
returns the error.
-/
def scanOneAntennaLoop : Nat → AntScan → List Line → Option (Antenna × Option PErr × List Line)
  | 0, _, _ => none
  | _ + 1, st, [] => some (st.ant, some .endAntNotFound, [])
  | fuel + 1, st, l :: rest =>
      if l.length < 61 then some (st.ant, some .endAntNotFound, rest)
      else
        match antennaStep st l with
        | .stop => some (st.ant, none, rest)
        | .fail st' e => some (st'.ant, some e, resyncAntenna rest)
        | .next st' => scanOneAntennaLoop fuel st' rest
        | .freq =>
            match parseOneFreq rest l st.dazi st.zen1 st.zen2 st.dzen with
            | none => none
            | some (_, some e1, rest') =>
                some (st.ant, some (.pcvWrap e1), resyncAntenna rest')
            | some (p, none, rest') => scanOneAntennaLoop fuel (addPcv st p) rest'

/-- Source function `scanOneAntenna`: run the loop from the zero-initialized
state with sufficient fuel. -/
def scanOneAntenna (lines : List Line) : Option (Antenna × Option PErr × List Line) :=
  scanOneAntennaLoop (lines.length + 1) antScanInit lines

/--
The scan loop of `ReadAntexData`, with explicit fuel (each iteration consumes
at least one line).  A line shorter than 61 characters is only logged; the
unconditional `buf[60:]` that follows panics (`none`) when the line is
shorter than 60 characters.  On a `START OF ANTENNA` label the per-antenna
parser runs; its error result is logged and discarded, and the antenna it
returned is appended unconditionally.
-/
def readAntexDataLoop : Nat → List Line → Option (List Antenna)
  | 0, _ => none
  | _ + 1, [] => some []
  | fuel + 1, l :: rest =>
      if l.length < 60 then none
      else if startsWith (l.drop 60) startAntLabel then
        match scanOneAntenna rest with
        | none => none
        | some (a, _, rest') => (readAntexDataLoop fuel rest').map (fun as => a :: as)
      else readAntexDataLoop fuel rest

/-- Source function `ReadAntexData`: run the loop with sufficient fuel. -/
def readAntexData (lines : List Line) : Option (List Antenna) :=
  readAntexDataLoop (lines.length + 1) lines

/-- The header fields collected by `ScanHeader` (`h` is the accumulated raw
header, one entry per line after short-line coercion). -/
structure Header where
  antexVer : Line := []
  satSys : Char := Char.ofNat 0
  pcvType : Char := Char.ofNat 0
  refAnt : Line := []
  h : List Line := []
deriving DecidableEq, Repr

/-- Pad a line with blanks on the right to a given width
(Go `fmt.Sprintf("%-60s...", buf)` padding). -/
def padTo (n : Nat) (s : Line) : Line := s ++ List.replicate (n - s.length) ' '

/-- The short-line coercion of `ScanHeader`: a line shorter than 61
characters is logged and replaced by itself padded to 60 columns with
`COMMENT` appended. -/
def coerceHeaderLine (l : Line) : Line :=
  if l.length < 61 then padTo 60 l ++ commentLabel else l

/--
The label dispatch of `ScanHeader` for one (already coerced) line: update the
version/system or PCV-type/reference-antenna fields, skip comments and
unrecognized labels, and signal `none` on `END OF HEADER` (the successful
return).
-/
def headerUpdate (acc : Header) (buf : Line) : Option Header :=
  if startsWith (buf.drop 60) antexVerLabel then
    some { acc with antexVer := trimSpace (buf.take 8), satSys := buf.getD 20 (Char.ofNat 0) }
  else if startsWith (buf.drop 60) pcvTypeLabel then
    some { acc with pcvType := buf.getD 0 (Char.ofNat 0),
                    refAnt := trimSpace ((buf.drop 20).take 20) }
  else if startsWith (buf.drop 60) commentLabel then some acc
  else if startsWith (buf.drop 60) endHeaderLabel then none
  else some acc

/--
Source function `ScanHeader`: consume lines until the `END OF HEADER` label
or the end of input, collecting header fields; the raw (coerced) line is
appended to `h` before dispatch, including for the terminating line.  The
function has no error result.
-/
def scanHeader : Header → List Line → Header × List Line
  | acc, [] => (acc, [])
  | acc, l :: rest =>
      let buf := coerceHeaderLine l
      let acc1 := { acc with h := acc.h ++ [buf] }
      match headerUpdate acc1 buf with
      | none => (acc1, rest)
      | some acc2 => scanHeader acc2 rest

/-! ### Concrete input lines used to instantiate the theorems -/

/-- Build an ANTEX line: data padded to 60 columns, label from column 60. -/
def mkLine (dat lab : String) : Line := padTo 60 dat.toList ++ lab.toList

/-- A `START OF FREQUENCY` line for frequency `G01`. -/
def startFreqDemo : Line := mkLine "   G01" "START OF FREQUENCY"

/-- A well-formed `NORTH / EAST / UP` line. -/
def neuDemo : Line := mkLine "    1.0    2.0    3.0" "NORTH / EAST / UP"

/-- A `NORTH / EAST / UP` line with only two data fields. -/
def neuShortDemo : Line := mkLine "    1.0    2.0" "NORTH / EAST / UP"

/-- A `NOAZI` row with two values (rows carry no label; the data runs on). -/
def noaziDemo : Line := "   NOAZI    0.5    1.5".toList

/-- An `END OF FREQUENCY` line. -/
def endFreqDemo : Line := mkLine "   G01" "END OF FREQUENCY"

/-- A pure `COMMENT` line. -/
def commentDemo : Line := mkLine "" "COMMENT"

/-- A `START OF ANTENNA` line. -/
def startAntDemo : Line := mkLine "" "START OF ANTENNA"

/-- An `END OF ANTENNA` line. -/
def endAntDemo : Line := mkLine "" "END OF ANTENNA"

/-- A `DAZI` line whose data field is not a number. -/
def daziBadDemo : Line := mkLine "     abc" "DAZI"

/-- A `VALID FROM` line whose year field is not numeric. -/
def validFromBadDemo : Line := mkLine "  xxxx    11    22     0     0    0.0000000" "VALID FROM"

/-- A `SINEX CODE` line. -/
def sinexDemo : Line := mkLine "IGS14_2247" "SINEX CODE"

/-- A satellite-style `TYPE / SERIAL NO` line: satellite IDs in the serial
fields and a COSPAR identifier. -/
def typeSatDemo : Line :=
  mkLine "BLOCK IIA           G01                 G032      1992-079A" "TYPE / SERIAL NO"

/-! ### Claim C1 -/

/--
Claim C1, counterexample.  The antenna block `[daziBadDemo, endAntDemo]`
fails its per-antenna parse (non-numeric `DAZI`, error `badFloat`), yet
`ReadAntexData` on a file consisting of exactly that block still returns the
(partially parsed) antenna: the output is `[antennaZero]`, not `[]`.  This
refutes "an antenna whose parse returns an error is not included in the
output sequence".
-/
theorem claim1_counterexample :
    scanOneAntenna [daziBadDemo, endAntDemo] = some (antennaZero, some .badFloat, []) ∧
    readAntexData [startAntDemo, daziBadDemo, endAntDemo] = some [antennaZero] :=
  ⟨by decide, by decide⟩

/--
Claim C1 (amended): whenever the body scanner meets a `START OF ANTENNA`
label, the antenna returned by `scanOneAntenna` is appended to the output
sequence regardless of whether the per-antenna parse reported an error (the
error is only logged), and scanning continues with the input position left by
the per-antenna parse.
-/
theorem claim1_amended (fuel : ℕ) (l : Line) (rest rest' : List Line) (a : Antenna)
    (e : Option PErr) (hl : 60 ≤ l.length)
    (hs : startsWith (l.drop 60) startAntLabel = true)
    (hscan : scanOneAntenna rest = some (a, e, rest')) :
    readAntexDataLoop (fuel + 1) (l :: rest) =
      (readAntexDataLoop fuel rest').map (fun as => a :: as) := by
  have hnl : ¬l.length < 60 := by omega
  simp [readAntexDataLoop, hnl, hs, hscan]

/-- Claim C1, witness for the amended theorem at a concrete failing block. -/
theorem claim1_amended_witness :
    readAntexDataLoop 2 [startAntDemo, daziBadDemo, endAntDemo] =
      (readAntexDataLoop 1 []).map (fun as => antennaZero :: as) :=
  claim1_amended 1 startAntDemo [daziBadDemo, endAntDemo] [] antennaZero
    (some .badFloat) (by decide) (by decide) (by decide)

/-! ### Claim C2 -/

/--
Claim C2, counterexample.  A 2-character body line is not "treated as an
unlabeled/comment-equivalent line, continuing the parse without failure":
in the antenna-start scanner `ReadAntexData` logs it but then evaluates
`buf[60:]` anyway, which panics (`none`); inside an antenna block,
`scanOneAntenna` logs it and aborts the antenna with the "End of freq label
not found" error instead of continuing.
-/
theorem claim2_counterexample :
    readAntexData ["hi".toList] = none ∧
    scanOneAntenna ["hi".toList, endAntDemo] =
      some (antennaZero, some .endAntNotFound, [endAntDemo]) :=
  ⟨by decide, by decide⟩

/--
Claim C2 (amended): in the antenna-start scanner a body line shorter than 60
characters makes the scan panic on the unguarded `buf[60:]` slice; a line of
exactly 60 characters is safely treated as unlabeled and skipped; inside an
antenna block any line shorter than 61 characters is logged and aborts that
antenna's parse with the "End of freq label not found" error (it is not
treated as a comment).
-/
theorem claim2_amended (fuel : ℕ) (l : Line) (rest : List Line) (st : AntScan) :
    (l.length < 60 → readAntexDataLoop (fuel + 1) (l :: rest) = none) ∧
    (l.length = 60 → readAntexDataLoop (fuel + 1) (l :: rest) = readAntexDataLoop fuel rest) ∧
    (l.length < 61 → scanOneAntennaLoop (fuel + 1) st (l :: rest) =
      some (st.ant, some .endAntNotFound, rest)) := by
  refine ⟨fun h => by simp [readAntexDataLoop, h], fun h => ?_, fun h => by
    simp [scanOneAntennaLoop, h]⟩
  have hd : l.drop 60 = [] := by
    apply List.drop_eq_nil_of_le
    omega
  have hnl : ¬l.length < 60 := by omega
  have hs : startsWith (l.drop 60) startAntLabel = false := by
    rw [hd]
    decide
  simp [readAntexDataLoop, hnl, hs]

/-- Claim C2, witness for the amended theorem at concrete short lines. -/
theorem claim2_amended_witness :
    readAntexDataLoop 1 ["hi".toList] = none ∧
    readAntexDataLoop 2 [List.replicate 60 ' '] = readAntexDataLoop 1 [] ∧
    scanOneAntennaLoop 1 antScanInit ["hi".toList] =
      some (antennaZero, some .endAntNotFound, []) :=
  ⟨(claim2_amended 0 "hi".toList [] antScanInit).1 (by decide),
   (claim2_amended 1 (List.replicate 60 ' ') [] antScanInit).2.1 (by decide),
   (claim2_amended 0 "hi".toList [] antScanInit).2.2 (by decide)⟩

/-! ### Claim C4 -/

/--
Claim C4: the code's own comment says `nextLine` "returns the next line
skipping COMMENT", but the closure tests the stale enclosing `buf` variable
instead of the line just read.  First conjunct: with the previous line being
the `START OF FREQUENCY` line, `nextLine` hands back the `COMMENT` line
itself as the substantive line instead of skipping it.  Second conjunct: in a
frequency block `START OF FREQUENCY; COMMENT; NORTH/EAST/UP; NOAZI; END OF
FREQUENCY` the comment line is therefore consumed in place of the
`NORTH / EAST / UP` line, and because it ends in `COMMENT` the following
`nextLine` call drains the entire remaining input, so the block fails with
the "no phase variation found" error instead of parsing the PCO and rows.
-/
theorem claim4_eval :
    freqNextLine startFreqDemo [commentDemo, neuDemo, noaziDemo, endFreqDemo] =
      (commentDemo, [neuDemo, noaziDemo, endFreqDemo]) ∧
    parseOneFreq [commentDemo, neuDemo, noaziDemo, endFreqDemo] startFreqDemo
        GoFloat.zero GoFloat.zero ⟨1, 0⟩ ⟨1, 0⟩ =
      some ({ Sys := 'G', Freq := 1, Nzen := 2 }, some .noPhase, []) :=
  ⟨by decide, by decide⟩

/-! ### Claim C8 -/

/--
Claim C8: a `NORTH / EAST / UP` line with fewer than three fields does not
produce an error.  The source's comment at that branch announces an "error
return advancing position to the END OF FREQUENCY", but the bare `return`
executed when the `END OF FREQUENCY` line is found leaves `err` nil: the
frequency block is reported as a success carrying an empty grid, which the
enclosing antenna then appends as a parsed frequency.
-/
theorem claim8_eval :
    parseOneFreq [neuShortDemo, endFreqDemo] startFreqDemo
        GoFloat.zero GoFloat.zero ⟨17, 0⟩ ⟨1, 0⟩ =
      some ({ Sys := 'G', Freq := 1 }, none, []) := by decide

/-! ### Claim C7 -/

/--
Claim C7, counterexample.  An antenna block whose `VALID FROM` line is
malformed is not "still parsed and returned successfully with its other
fields intact": `scanOneAntenna` returns the `badDate` error after
resynchronizing to `END OF ANTENNA`, and the `SINEX CODE` line that followed
the bad date was skipped (the field is left empty in the returned record).
-/
theorem claim7_counterexample :
    scanOneAntenna [validFromBadDemo, sinexDemo, endAntDemo] =
      some (antennaZero, some .badDate, []) ∧
    antennaZero.SinexCode = [] :=
  ⟨by decide, by decide⟩

/-- A `VALID UNTIL` line whose year field is not numeric. -/
def validUntilBadDemo : Line :=
  mkLine "  yyyy    10    16    23    59   59.9999999" "VALID UNTIL"

/--
Claim C7 (amended): a `VALID FROM` or `VALID UNTIL` line whose date field
fails to parse is fatal to the whole enclosing antenna, not only to the date
field: the per-antenna loop stops at that line, skips forward to
`END OF ANTENNA`, and returns the antenna built so far (with the zero
timestamp Go stores alongside the parse error in the respective field)
together with the date error.
-/
theorem claim7_amended (fuel : ℕ) (st : AntScan) (l : Line) (rest : List Line)
    (hl : 61 ≤ l.length) (hdate : parseDate (l.take 60) = none) :
    (trimRight (l.drop 60) = validFromLabel →
      scanOneAntennaLoop (fuel + 1) st (l :: rest) =
        some ({ st.ant with ValidFrom := GoTime.zero }, some .badDate,
          resyncAntenna rest)) ∧
    (trimRight (l.drop 60) = validUntilLabel →
      scanOneAntennaLoop (fuel + 1) st (l :: rest) =
        some ({ st.ant with ValidUntil := GoTime.zero }, some .badDate,
          resyncAntenna rest)) := by
  have hnl : ¬l.length < 61 := by omega
  constructor
  · intro hlab
    have hstep : antennaStep st l =
        .fail { st with ant := { st.ant with ValidFrom := GoTime.zero } } .badDate := by
      simp only [antennaStep]
      rw [hlab, if_neg (by decide), if_neg (by decide), if_neg (by decide),
         if_neg (by decide), if_neg (by decide), if_neg (by decide), if_pos rfl, hdate]
    rw [scanOneAntennaLoop, if_neg hnl, hstep]
  · intro hlab
    have hstep : antennaStep st l =
        .fail { st with ant := { st.ant with ValidUntil := GoTime.zero } } .badDate := by
      simp only [antennaStep]
      rw [hlab, if_neg (by decide), if_neg (by decide), if_neg (by decide),
         if_neg (by decide), if_neg (by decide), if_neg (by decide), if_neg (by decide),
         if_pos rfl, hdate]
    rw [scanOneAntennaLoop, if_neg hnl, hstep]

/-- Claim C7, witness for the amended theorem at concrete malformed
`VALID FROM` and `VALID UNTIL` lines. -/
theorem claim7_amended_witness :
    scanOneAntennaLoop 3 antScanInit [validFromBadDemo, sinexDemo, endAntDemo] =
      some ({ antennaZero with ValidFrom := GoTime.zero }, some .badDate,
        resyncAntenna [sinexDemo, endAntDemo]) ∧
    scanOneAntennaLoop 2 antScanInit [validUntilBadDemo, endAntDemo] =
      some ({ antennaZero with ValidUntil := GoTime.zero }, some .badDate,
        resyncAntenna [endAntDemo]) :=
  ⟨(claim7_amended 2 antScanInit validFromBadDemo [sinexDemo, endAntDemo]
      (by decide) (by decide)).1 (by decide),
   (claim7_amended 1 antScanInit validUntilBadDemo [endAntDemo]
      (by decide) (by decide)).2 (by decide)⟩

/-! ### Claim C9 -/

/-- The antenna record produced by parsing `typeSatDemo`: identifier fields
populated satellite-style, everything else at its zero value. -/
def satAntDemo : Antenna :=
  { Typ := "BLOCK IIA".toList, S1 := "G01".toList, S2 := "G032".toList,
    S3 := "1992-079A".toList }

/--
Claim C9, counterexample.  A satellite-style antenna block (identifiers
populated with satellite IDs and a COSPAR identifier) parses successfully,
yet `IsSatAnt` reports `false`: no assignment to `isSatelliteAntenna` exists
anywhere in the parser, so the flag keeps its zero value regardless of which
identifier fields are populated.
-/
theorem claim9_counterexample :
    scanOneAntenna [typeSatDemo, endAntDemo] = some (satAntDemo, none, []) ∧
    satAntDemo.S2 = "G032".toList ∧ satAntDemo.IsSatAnt = false :=
  ⟨by decide, by decide, by decide⟩

/-- Label dispatch never touches the satellite flag: both the `next` and the
`fail` outcome of `antennaStep` carry a state whose antenna has the same
`isSatelliteAntenna` value as the input state. -/
theorem antennaStep_flag (st : AntScan) (l : Line) :
    match antennaStep st l with
    | .next s2 => s2.ant.isSatelliteAntenna = st.ant.isSatelliteAntenna
    | .fail s2 _ => s2.ant.isSatelliteAntenna = st.ant.isSatelliteAntenna
    | _ => True := by
  simp only [antennaStep]
  by_cases h1 : trimRight (List.drop 60 l) = commentLabel
  · rw [if_pos h1]
  · rw [if_neg h1]
    by_cases h2 : trimRight (List.drop 60 l) = typeSerialLabel
    · rw [if_pos h2]
    · rw [if_neg h2]
      by_cases h3 : trimRight (List.drop 60 l) = methLabel
      · rw [if_pos h3]
      · rw [if_neg h3]
        by_cases h4 : trimRight (List.drop 60 l) = daziLabel
        · rw [if_pos h4]
          rcases parseFloat (trimSpace (List.take 60 l)) with _ | q
          · exact rfl
          · exact rfl
        · rw [if_neg h4]
          by_cases h5 : trimRight (List.drop 60 l) = zenLabel
          · rw [if_pos h5]
            rcases fields (List.take 60 l) with _ | ⟨s1, _ | ⟨s2, _ | ⟨s3, tl⟩⟩⟩
            · exact rfl
            · exact rfl
            · exact rfl
            · dsimp only
              by_cases hc : (parseFloat s1).isSome = true ∧
                  (parseFloat s2).isSome = true ∧ (parseFloat s3).isSome = true
              · rw [if_pos hc]
              · rw [if_neg hc]
          · rw [if_neg h5]
            by_cases h6 : trimRight (List.drop 60 l) = numFreqLabel
            · rw [if_pos h6]
              rcases parseInt (trimSpace (List.take 60 l)) with _ | n
              · exact rfl
              · exact rfl
            · rw [if_neg h6]
              by_cases h7 : trimRight (List.drop 60 l) = validFromLabel
              · rw [if_pos h7]
                rcases parseDate (List.take 60 l) with _ | t
                · exact rfl
                · exact rfl
              · rw [if_neg h7]
                by_cases h8 : trimRight (List.drop 60 l) = validUntilLabel
                · rw [if_pos h8]
                  rcases parseDate (List.take 60 l) with _ | t
                  · exact rfl
                  · exact rfl
                · rw [if_neg h8]
                  by_cases h9 : trimRight (List.drop 60 l) = sinexLabel
                  · rw [if_pos h9]
                  · rw [if_neg h9]
                    by_cases h10 : trimRight (List.drop 60 l) = startFreqLabel
                    · rw [if_pos h10]
                      exact trivial
                    · rw [if_neg h10]
                      by_cases h11 : trimRight (List.drop 60 l) = endAntLabel
                      · rw [if_pos h11]
                        exact trivial
                      · rw [if_neg h11]

/--
Claim C9 (amended): for every antenna returned by the per-antenna scan loop
(started from any state whose flag is clear, in particular the zero state),
`IsSatAnt` is `false` — the parser never derives or sets the satellite flag,
no matter how the identifier fields are populated.
-/
theorem claim9_amended (fuel : ℕ) (st : AntScan) (lines : List Line) (a : Antenna)
    (e : Option PErr) (rest : List Line) (h0 : st.ant.isSatelliteAntenna = false)
    (h : scanOneAntennaLoop fuel st lines = some (a, e, rest)) :
    a.IsSatAnt = false := by
  induction fuel generalizing st lines a e rest with
  | zero => simp [scanOneAntennaLoop] at h
  | succ n ih =>
      cases lines with
      | nil =>
          simp only [scanOneAntennaLoop, Option.some.injEq, Prod.mk.injEq] at h
          rw [Antenna.IsSatAnt, ← h.1, h0]
      | cons l rest2 =>
          rw [scanOneAntennaLoop] at h
          by_cases hl : l.length < 61
          · rw [if_pos hl] at h
            simp only [Option.some.injEq, Prod.mk.injEq] at h
            rw [Antenna.IsSatAnt, ← h.1, h0]
          · rw [if_neg hl] at h
            cases hstep : antennaStep st l with
            | stop =>
                rw [hstep] at h
                simp only [Option.some.injEq, Prod.mk.injEq] at h
                rw [Antenna.IsSatAnt, ← h.1, h0]
            | fail st2 e2 =>
                rw [hstep] at h
                simp only [Option.some.injEq, Prod.mk.injEq] at h
                have hm := antennaStep_flag st l
                rw [hstep] at hm
                have hm' : st2.ant.isSatelliteAntenna = st.ant.isSatelliteAntenna := hm
                rw [Antenna.IsSatAnt, ← h.1, hm', h0]
            | next st2 =>
                rw [hstep] at h
                have hm := antennaStep_flag st l
                rw [hstep] at hm
                have hm' : st2.ant.isSatelliteAntenna = st.ant.isSatelliteAntenna := hm
                exact ih st2 rest2 a e rest (hm'.trans h0) h
            | freq =>
                rw [hstep] at h
                cases hpf : parseOneFreq rest2 l st.dazi st.zen1 st.zen2 st.dzen with
                | none => rw [hpf] at h; exact absurd h (by simp)
                | some out =>
                    obtain ⟨p, eo, rest'⟩ := out
                    rw [hpf] at h
                    cases eo with
                    | some e1 =>
                        simp only [Option.some.injEq, Prod.mk.injEq] at h
                        rw [Antenna.IsSatAnt, ← h.1, h0]
                    | none =>
                        refine ih (addPcv st p) rest' a e rest ?_ h
                        simpa [addPcv] using h0

/-- Claim C9, witness for the amended theorem at a concrete satellite-style
block. -/
theorem claim9_amended_witness : satAntDemo.IsSatAnt = false :=
  claim9_amended 3 antScanInit [typeSatDemo, endAntDemo]
    satAntDemo none [] (by decide) (by decide)

/-! ### Claim C6 -/

/-- An `ANTEX VERSION / SYST` header line (version `1.4`, system `G` in
column 20). -/
def verDemo : Line := mkLine "     1.4            G" "ANTEX VERSION / SYST"

/-- A `PCV TYPE / REFANT` header line (type `A` in column 0, reference
antenna from column 20). -/
def pcvTypeDemo : Line := mkLine "A                   IGS14" "PCV TYPE / REFANT"

/-- Whether a line, after the short-line coercion, carries the
`END OF HEADER` label. -/
def isEndHeaderLine (l : Line) : Bool :=
  startsWith ((coerceHeaderLine l).drop 60) endHeaderLabel

/-- The effect of one non-terminating header line on the collected fields:
append the coerced line to `h`, then dispatch on its label. -/
def headerFoldStep (acc : Header) (l : Line) : Header :=
  let buf := coerceHeaderLine l
  (headerUpdate { acc with h := acc.h ++ [buf] } buf).getD { acc with h := acc.h ++ [buf] }

/-- `headerUpdate` only signals termination on the `END OF HEADER` label. -/
theorem headerUpdate_of_not_end (acc : Header) (buf : Line)
    (h : startsWith (buf.drop 60) endHeaderLabel = false) :
    headerUpdate acc buf = some ((headerUpdate acc buf).getD acc) := by
  unfold headerUpdate
  split_ifs <;> simp_all

/--
Claim C6 (confirmed): when no line of the input carries the `END OF HEADER`
label, the header parse does not fail — `ScanHeader` has no error result at
all — and it ends exactly at input exhaustion (no residual input), returning
the header fields accumulated line by line over the entire input (the fold of
the per-line field update over all lines seen).
-/
theorem claim6_confirmed (lines : List Line) (acc : Header)
    (h : ∀ l ∈ lines, isEndHeaderLine l = false) :
    scanHeader acc lines = (lines.foldl headerFoldStep acc, []) := by
  induction lines generalizing acc with
  | nil => rfl
  | cons l rest ih =>
      have hl : isEndHeaderLine l = false := h l (List.mem_cons_self l rest)
      have hrest : ∀ x ∈ rest, isEndHeaderLine x = false :=
        fun x hx => h x (List.mem_cons_of_mem _ hx)
      rw [scanHeader, List.foldl_cons]
      have hne := headerUpdate_of_not_end
        { acc with h := acc.h ++ [coerceHeaderLine l] } (coerceHeaderLine l)
        (by simpa [isEndHeaderLine] using hl)
      rw [hne]
      exact ih _ hrest

/-- Claim C6, witness: a header consisting of only a version/system line and
a PCV-type line, with no terminator, still returns the fully collected
fields and consumes the whole input. -/
theorem claim6_witness :
    scanHeader {} [verDemo, pcvTypeDemo] =
      ([verDemo, pcvTypeDemo].foldl headerFoldStep {}, []) :=
  claim6_confirmed [verDemo, pcvTypeDemo] {} (by decide)

/-! ### Claim C10 -/

/-- The row parser only produces the "no phase variation" and float-parse
errors. -/
theorem parseOneAzi_err (s : Line) (e : PErr) (h : parseOneAzi s = .error e) :
    e = .noPhase ∨ e = .badFloat := by
  unfold parseOneAzi at h
  split at h
  · injection h with h2
    exact Or.inl h2.symm
  · split at h
    · injection h with h2
      exact Or.inr h2.symm
    · exact Except.noConfusion h

/-- The azimuth-row loop never produces the division-guard error. -/
theorem readAziRows_err (n : Nat) (z : ℤ) (b : Line) (ls : List Line)
    (e : PErr) (r : List Line) (h : readAziRows n z b ls = .error (e, r)) :
    e ≠ .divByZero := by
  induction n generalizing b ls e r with
  | zero => exact absurd h (by simp [readAziRows])
  | succ k ih =>
      simp only [readAziRows] at h
      split at h
      case _ e1 heq =>
          simp only [Except.error.injEq, Prod.mk.injEq] at h
          rcases parseOneAzi_err _ _ heq with h5 | h5 <;> simp [← h.1, h5]
      case _ az vals heq =>
          split at h
          · simp only [Except.error.injEq, Prod.mk.injEq] at h
            simp [← h.1]
          · split at h
            · simp only [Except.error.injEq, Prod.mk.injEq] at h
              simp [← h.1]
            · split at h
              · simp only [Except.error.injEq, Prod.mk.injEq] at h
                simp [← h.1]
              · split at h
                case _ er heq2 =>
                    rw [Except.error.injEq] at h
                    exact ih _ _ _ _ (by rw [heq2, h])
                case _ => exact Except.noConfusion h

/-- The `NORTH / EAST / UP` section only fails with a float-parse error. -/
theorem pcoSection_err (p : Pcv) (b : Line) (ls : List Line) (p' : Pcv)
    (e : PErr) (r : List Line) (h : pcoSection p b ls = some (.err p' e r)) :
    e = .badFloat := by
  simp only [pcoSection] at h
  split at h <;>
    (try split at h) <;>
    (try split at h) <;>
    (try split at h) <;>
    first
      | exact Option.noConfusion h
      | (injection h with h2; exact PcoOut.noConfusion h2)
      | (injection h with h2; injection h2 with h2a h2b h2c; exact h2b.symm)

/--
Claim C10 (confirmed): the zenith-count division by `dzen` is unguarded in
the source, and the guard added in the embedding is live.  First conjunct
(reachability): in an antenna block where `START OF FREQUENCY` appears before
any `ZEN1 / ZEN2 / DZEN` line, `dzen` still holds its initial value `0` when
`parseOneFreq` computes the zenith count, and the embedding's division-guard
error is reached (wrapped by the per-antenna parser).  Second conjunct
(unreachability): under the precondition `dzen ≠ 0`, no outcome of
`parseOneFreq` is the division-guard error.
-/
theorem claim10_confirmed :
    scanOneAntenna [startFreqDemo, neuDemo, endAntDemo] =
      some (antennaZero, some (.pcvWrap .divByZero), []) ∧
    ∀ (lines : List Line) (buf : Line) (dazi zen1 zen2 dzen : GoFloat)
      (p : Pcv) (e : Option PErr) (rest : List Line),
      dzen.m ≠ 0 →
      parseOneFreq lines buf dazi zen1 zen2 dzen = some (p, e, rest) →
      e ≠ some .divByZero := by
  constructor
  · decide
  · intro lines buf dazi zen1 zen2 dzen p e rest hdz h
    have hz : dzen.isZero = false := by simp [GoFloat.isZero, hdz]
    simp only [parseOneFreq, hz, Bool.false_eq_true, if_false] at h
    split at h <;>
      (try split at h) <;>
      (try split at h) <;>
      (try split at h) <;>
      (try split at h) <;>
      (try split at h) <;>
      (try split at h) <;>
      (try split at h) <;>
      (try split at h) <;>
      (try split at h) <;>
      first
        | exact Option.noConfusion h
        | (simp only [Option.some.injEq, Prod.mk.injEq] at h
           rcases h with ⟨h1, h2, h3⟩
           simp [← h2]
           done)
        | (rename_i p2 e2 r2 heq
           simp only [Option.some.injEq, Prod.mk.injEq] at h
           rcases h with ⟨h1, h2, h3⟩
           rw [← h2]
           simp [pcoSection_err _ _ _ _ _ _ heq]
           done)
        | (rename_i e2 heq
           simp only [Option.some.injEq, Prod.mk.injEq] at h
           rcases h with ⟨h1, h2, h3⟩
           rw [← h2]
           rcases parseOneAzi_err _ _ heq with h5 | h5 <;> simp [h5]
           done)
        | (rename_i er heq
           simp only [Option.some.injEq, Prod.mk.injEq] at h
           rcases h with ⟨h1, h2, h3⟩
           rw [← h2]
           have h6 := readAziRows_err _ _ _ _ er.1 er.2 heq
           simp [h6]
           done)

/-- Claim C10, witness for the second conjunct at a frequency block with a
nonzero zenith step. -/
theorem claim10_witness :
    (none : Option PErr) ≠ some .divByZero :=
  claim10_confirmed.2 [neuDemo, noaziDemo, endFreqDemo] startFreqDemo
    GoFloat.zero GoFloat.zero ⟨1, 0⟩ ⟨1, 0⟩
    { Sys := 'G', Freq := 1, Nzen := 2, PCO := ⟨⟨10, 1⟩, ⟨20, 1⟩, ⟨30, 1⟩⟩,
      Vnonaz := [⟨5, 1⟩, ⟨15, 1⟩] } none []
    (by norm_num) (by decide)

/-! ### Claim C3 -/

/-- On success the azimuth-row loop returns exactly its requested number of
rows, each of the checked length. -/
theorem readAziRows_ok (n : Nat) (z : ℤ) (b : Line) (ls : List Line)
    (rows : List (List GoFloat)) (azs : List GoFloat) (b' : Line) (r : List Line)
    (h : readAziRows n z b ls = .ok (rows, azs, b', r)) :
    rows.length = n ∧ ∀ row ∈ rows, (row.length : ℤ) = z := by
  induction n generalizing b ls rows azs b' r with
  | zero =>
      simp only [readAziRows, Except.ok.injEq, Prod.mk.injEq] at h
      obtain ⟨h1, h2, h3, h4⟩ := h
      subst h1
      exact ⟨rfl, by simp⟩
  | succ k ih =>
      simp only [readAziRows] at h
      split at h
      · exact Except.noConfusion h
      · split at h
        · exact Except.noConfusion h
        · split at h
          · exact Except.noConfusion h
          · split at h
            · exact Except.noConfusion h
            · split at h
              · exact Except.noConfusion h
              case _ rows2 azs2 b2 r2 heq3 =>
                  simp only [Except.ok.injEq, Prod.mk.injEq] at h
                  obtain ⟨h1, h2, h3, h4⟩ := h
                  subst h1
                  obtain ⟨ih1, ih2⟩ := ih _ _ _ _ _ _ heq3
                  refine ⟨by simp [ih1], ?_⟩
                  intro row hrow
                  rcases List.mem_cons.mp hrow with rfl | hr
                  · omega
                  · exact ih2 _ hr

/-- The early return of the `NORTH / EAST / UP` section hands back the input
record unchanged (no PCO, no rows, zero counts). -/
theorem pcoSection_early (p : Pcv) (b : Line) (ls : List Line) (p' : Pcv)
    (r : List Line) (h : pcoSection p b ls = some (.early p' r)) : p' = p := by
  simp only [pcoSection] at h
  split at h <;>
    (try split at h) <;>
    (try split at h) <;>
    (try split at h) <;>
    first
      | exact Option.noConfusion h
      | (injection h with h2; exact PcoOut.noConfusion h2)
      | (injection h with h2; injection h2 with h2a h2b; exact h2a.symm)

/--
Claim C3 (amended): every PCV grid returned without error by the frequency
block parser satisfies the length invariant with respect to its stored
counts: the non-azimuth value sequence has length `Nzen`, there are `Nazi`
azimuth rows, and every azimuth row has length `Nzen`.  On the ordinary
success path these stored counts are the counts derived from the grid
parameters; on the short `NORTH / EAST / UP` early-success path (see the
counterexample and claim C8) the stored counts and all sequences are zero and
empty, so the invariant holds with counts `0` while the derived formula
counts are not matched.
-/
theorem claim3_amended (lines : List Line) (buf : Line) (dazi zen1 zen2 dzen : GoFloat)
    (p : Pcv) (rest : List Line)
    (h : parseOneFreq lines buf dazi zen1 zen2 dzen = some (p, none, rest)) :
    (p.Vnonaz.length : ℤ) = p.Nzen ∧ (p.Vaz.length : ℤ) = p.Nazi ∧
    ∀ row ∈ p.Vaz, (row.length : ℤ) = p.Nzen := by
  simp only [parseOneFreq] at h
  split at h <;>
    (try split at h) <;>
    (try split at h) <;>
    (try split at h) <;>
    (try split at h) <;>
    (try split at h) <;>
    (try split at h) <;>
    (try split at h) <;>
    (try split at h) <;>
    (try split at h) <;>
    (try split at h) <;>
    first
      | exact Option.noConfusion h
      | (simp only [Option.some.injEq, Prod.mk.injEq] at h
         exact Option.noConfusion h.2.1)
      | (rename_i p2 rst heq
         simp only [Option.some.injEq, Prod.mk.injEq] at h
         rcases h with ⟨h1, h2, h3⟩
         have hpe := pcoSection_early _ _ _ _ _ heq
         rw [← h1, hpe]
         simp
         done)
      | (rename_i rows2 azs2 b2 r2 heq hend
         simp only [Option.some.injEq, Prod.mk.injEq] at h
         rcases h with ⟨h1, h2, h3⟩
         obtain ⟨hr1, hr2⟩ := readAziRows_ok _ _ _ _ _ _ _ _ heq
         rw [← h1]
         refine ⟨by simp; omega, by simp [hr1]; omega, ?_⟩
         intro row hrow
         simp only at hrow
         exact hr2 row hrow)

/-- The grid produced by `parseOneFreq` on the well-formed demo block. -/
def pcvDemo : Pcv :=
  { Sys := 'G', Freq := 1, Nzen := 2, PCO := ⟨⟨10, 1⟩, ⟨20, 1⟩, ⟨30, 1⟩⟩,
    Vnonaz := [⟨5, 1⟩, ⟨15, 1⟩] }

/-- Claim C3, witness for the amended theorem at a concrete successful
frequency block. -/
theorem claim3_amended_witness :
    (pcvDemo.Vnonaz.length : ℤ) = pcvDemo.Nzen ∧
    (pcvDemo.Vaz.length : ℤ) = pcvDemo.Nazi ∧
    ∀ row ∈ pcvDemo.Vaz, (row.length : ℤ) = pcvDemo.Nzen :=
  claim3_amended [neuDemo, noaziDemo, endFreqDemo] startFreqDemo
    GoFloat.zero GoFloat.zero ⟨1, 0⟩ ⟨1, 0⟩ pcvDemo [] (by decide)

/--
Claim C3, counterexample.  The frequency block whose `NORTH / EAST / UP`
line has only two fields is returned without error (see claim C8) with an
empty non-azimuth sequence, while the zenith count computed from the grid
parameters (`zen1 = 0`, `zen2 = 16`, `dzen = 2`) is `9`: a grid returned
without error whose non-azimuth value sequence does not have the derived
zenith count's length.
-/
theorem claim3_counterexample :
    parseOneFreq [neuShortDemo, endFreqDemo] startFreqDemo
        GoFloat.zero GoFloat.zero ⟨16, 0⟩ ⟨2, 0⟩ =
      some ({ Sys := 'G', Freq := 1 }, none, []) ∧
    nzenOf GoFloat.zero ⟨16, 0⟩ ⟨2, 0⟩ = 9 ∧
    (({ Sys := 'G', Freq := 1 } : Pcv).Vnonaz.length : ℤ) = 0 :=
  ⟨by decide, by decide, by decide⟩

end Antex
